import Mathlib

/-!
# TimerTask: a polling software timer

Shallow embedding of `src/TimerTask.h`.

* `unsigned long` values are natural numbers below `2 ^ w`, where `w` is the
  bit width of the clock (32 on the usual Arduino targets); every `+` and `-`
  of the source is reduced modulo `2 ^ w` (`wadd`, `wsub`).
* Every call of `millis()` in the source is an explicit argument of the
  embedded function, in the order in which the calls are executed.  The
  operations `poll`, `rearmAt` take a single clock reading and pass it to every
  call site of one method call.
* The function pointer `task` is an optional callback identifier; calling it
  is recorded in the `calls` field of the result of `checkInterval`.
* The `while` loop of `checkInterval` need not terminate under modular
  arithmetic, so it is run with fuel and yields `none` when the fuel is used up.
-/

namespace TimerTask

/-- Addition of two `unsigned long` values of width `w`. -/
def wadd (w a b : Nat) : Nat := (a + b) % 2 ^ w

/-- Subtraction of two `unsigned long` values of width `w`. -/
def wsub (w a b : Nat) : Nat := (a + (2 ^ w - b % 2 ^ w)) % 2 ^ w

end TimerTask

/-- The private members of class `TimerTask`. -/
structure TimerTask where
  lastTime : Nat
  interval : Nat
  task : Option Nat
  isPaused : Bool
  pauseTime : Nat
  autoRetrigger : Bool
  triggered : Bool
  deriving DecidableEq

namespace TimerTask

/-- The constructor `TimerTask(func, newInterval, startPaused, autoRetrigger)`;
`millis` is the value returned by the call of `millis()`. -/
def new (func : Option Nat) (newInterval : Nat) (startPaused autoRetrigger : Bool)
    (millis : Nat) : TimerTask :=
  { task := func
    interval := newInterval
    isPaused := startPaused
    autoRetrigger := autoRetrigger
    triggered := false
    lastTime := millis
    pauseTime := 0 }

/-- The method `setTask(func)`. -/
def setTask (s : TimerTask) (func : Option Nat) : TimerTask :=
  { s with task := func }

/-- The method `setInterval(newInterval)`. -/
def setInterval (s : TimerTask) (newInterval : Nat) : TimerTask :=
  { s with interval := newInterval }

/-- The method `pause()`; `millis` is the value returned by `millis()`. -/
def pause (s : TimerTask) (millis : Nat) : TimerTask :=
  if !s.isPaused then
    { s with isPaused := true, pauseTime := millis }
  else s

/-- The method `resume()`; `millis` is the value returned by `millis()`. -/
def resume (w : Nat) (s : TimerTask) (millis : Nat) : TimerTask :=
  if s.isPaused then
    { s with isPaused := false, lastTime := wadd w s.lastTime (wsub w millis s.pauseTime) }
  else s

/-- The method `isTriggered()`. -/
def isTriggered (s : TimerTask) : Bool := s.triggered

/-- The loop `while (lastTime + interval <= currentTime) lastTime += interval;`
of `checkInterval`, run for at most `fuel` evaluations of its condition.
The result is the final `lastTime`, or `none` when the fuel does not suffice. -/
def catchUpLoop (w interval currentTime : Nat) : Nat → Nat → Option Nat
  | 0, _ => none
  | fuel + 1, lastTime =>
    if wadd w lastTime interval ≤ currentTime then
      catchUpLoop w interval currentTime fuel (wadd w lastTime interval)
    else some lastTime

/-- What one call of `checkInterval` produces: the returned value, the object
afterwards and the callbacks that were called, in order. -/
structure PollResult where
  fired : Bool
  state : TimerTask
  calls : List Nat
  deriving DecidableEq

/-- The part of `checkInterval` after `lastTime` has been updated (lines 43-50):
the one-shot latch, the callback and `return true`.  `m3` is the reading of
`millis()` inside `pause()`. -/
def fire (s : TimerTask) (m3 : Nat) : PollResult :=
  let s1 := if !s.autoRetrigger then pause { s with triggered := true } m3 else s
  { fired := true
    state := s1
    calls := match s1.task with
      | some f => [f]
      | none => [] }

/-- The method `checkInterval(incrementalTime)`.  `m1` is the reading of
`millis()` in the condition, `m2` the reading in the branch that updates
`lastTime`, `m3` the reading inside `pause()`.  `none` means that the loop
did not finish within `fuel` evaluations of its condition. -/
def checkInterval (w fuel : Nat) (s : TimerTask) (incrementalTime : Bool)
    (m1 m2 m3 : Nat) : Option PollResult :=
  if !s.isPaused && decide (s.interval ≤ wsub w m1 s.lastTime) then
    if incrementalTime then
      match catchUpLoop w s.interval m2 fuel s.lastTime with
      | some lt => some (fire { s with lastTime := lt } m3)
      | none => none
    else
      some (fire { s with lastTime := m2 } m3)
  else
    some { fired := false, state := s, calls := [] }

/-- The method `rearm(resetTime, startTimer)`.  `m1` and `m2` are the readings
of `millis()` in the `resetTime` branch, `m3` the reading inside `resume()` or
`pause()`. -/
def rearm (w : Nat) (s : TimerTask) (resetTime startTimer : Bool) (m1 m2 m3 : Nat) :
    TimerTask :=
  let s1 := { s with triggered := false }
  let s2 :=
    if resetTime then
      let s3 := { s1 with lastTime := m1 }
      if s3.isPaused then { s3 with pauseTime := m2 } else s3
    else s1
  if startTimer then resume w s2 m3 else pause s2 m3

/-- A call of `checkInterval(catchUp)` during which the clock reads `now`. -/
def poll (w fuel : Nat) (s : TimerTask) (catchUp : Bool) (now : Nat) : Option PollResult :=
  checkInterval w fuel s catchUp now now now

/-- A call of `rearm(resetTime, startTimer)` during which the clock reads `now`. -/
def rearmAt (w : Nat) (s : TimerTask) (resetTime startTimer : Bool) (now : Nat) : TimerTask :=
  rearm w s resetTime startTimer now now now

/-! ## Sequences of calls -/

/-- One call of a public method that changes or polls the timer, with the clock
reading during the call. -/
inductive Op where
  | setTask (func : Option Nat)
  | setInterval (newInterval : Nat)
  | checkInterval (incrementalTime : Bool) (now : Nat)
  | pause (now : Nat)
  | resume (now : Nat)
  | rearm (resetTime startTimer : Bool) (now : Nat)
  deriving DecidableEq

/-- The effect of one call.  Only `checkInterval` can return `true`, call the
callback, or fail to return. -/
def Op.apply (w fuel : Nat) (s : TimerTask) : Op → Option PollResult
  | .setTask func => some { fired := false, state := s.setTask func, calls := [] }
  | .setInterval newInterval =>
    some { fired := false, state := s.setInterval newInterval, calls := [] }
  | .checkInterval incrementalTime now => TimerTask.poll w fuel s incrementalTime now
  | .pause now => some { fired := false, state := s.pause now, calls := [] }
  | .resume now => some { fired := false, state := TimerTask.resume w s now, calls := [] }
  | .rearm resetTime startTimer now =>
    some { fired := false, state := TimerTask.rearmAt w s resetTime startTimer now, calls := [] }

/-- The number of calls of `checkInterval` that return `true` when the calls
`ops` are made in order, starting from `s`.  A call that does not return ends
the sequence. -/
def firings (w fuel : Nat) : TimerTask → List Op → Nat
  | _, [] => 0
  | s, op :: ops =>
    match Op.apply w fuel s op with
    | none => 0
    | some r => (if r.fired then 1 else 0) + firings w fuel r.state ops

/-- The object after the calls `ops`, made in order starting from `s`; `none`
when one of the calls does not return. -/
def runOps (w fuel : Nat) : TimerTask → List Op → Option TimerTask
  | s, [] => some s
  | s, op :: ops =>
    match Op.apply w fuel s op with
    | none => none
    | some r => runOps w fuel r.state ops

/-- The call is neither `resume` nor `rearm`. -/
def Op.noRestart : Op → Bool
  | .resume _ => false
  | .rearm _ _ _ => false
  | _ => true

/-- The call is not `rearm`. -/
def Op.noRearm : Op → Bool
  | .rearm _ _ _ => false
  | _ => true

/-- The clock readings of a call. -/
def Op.clock : Op → Option Nat
  | .checkInterval _ now => some now
  | .pause now => some now
  | .resume now => some now
  | .rearm _ _ now => some now
  | _ => none

/-- The clock readings of the calls never decrease, starting from `t`. -/
def clockMonotone : Nat → List Op → Bool
  | _, [] => true
  | t, op :: ops =>
    match op.clock with
    | some now => decide (t ≤ now) && clockMonotone now ops
    | none => clockMonotone t ops

/-- A one-shot timer made by `TimerTask(NULL, 100, false, false)` when the clock
reads 0. -/
def oneShot100 : TimerTask := new none 100 false false 0

/-! ## Concrete timers used in the scenarios -/

/-- A running repeating timer of width 32 whose reference is 50 units before
the clock wraps, with interval 100. -/
def timerNearWrap : TimerTask :=
  { lastTime := 2 ^ 32 - 50, interval := 100, task := none, isPaused := false,
    pauseTime := 0, autoRetrigger := true, triggered := false }

/-- A running repeating timer of width 32 whose reference is 500 units before
the clock wraps, with interval 100. -/
def timerBeforeWrap : TimerTask :=
  { lastTime := 2 ^ 32 - 500, interval := 100, task := none, isPaused := false,
    pauseTime := 0, autoRetrigger := true, triggered := false }

/-- The timer made by `TimerTask(NULL, 100)` when the clock reads 0: running,
repeating, `lastTime = 0`. -/
def timer100 : TimerTask := new none 100 false true 0

/-- A running repeating timer of width 32 with interval 0 and
`lastTime = 0`, as `TimerTask(NULL, 0)` makes it when the clock reads 0. -/
def timerZero : TimerTask := new none 0 false true 0

/-- A running repeating timer of width 32 with interval 1 and
`lastTime = 0`, as `TimerTask(NULL, 1)` makes it when the clock reads 0. -/
def timerTick : TimerTask := new none 1 false true 0

/-- A running repeating timer with callback 7, interval 100 and
`lastTime = 0`. -/
def timerWithTask : TimerTask := new (some 7) 100 false true 0

/-! ## Modular arithmetic of the clock -/

theorem wsub_lt (w a b : Nat) : wsub w a b < 2 ^ w :=
  Nat.mod_lt _ (Nat.pos_pow_of_pos w (by decide))

theorem wadd_lt (w a b : Nat) : wadd w a b < 2 ^ w :=
  Nat.mod_lt _ (Nat.pos_pow_of_pos w (by decide))

/-- The subtraction of the source is subtraction of integers modulo `2 ^ w`. -/
theorem wsub_cast (w a b : Nat) :
    ((wsub w a b : Nat) : Int) = ((a : Int) - (b : Int)) % (2 : Int) ^ w := by
  have hM : 0 < 2 ^ w := Nat.pos_pow_of_pos w (by decide)
  have hle : b % 2 ^ w ≤ 2 ^ w := (Nat.mod_lt b hM).le
  have hb : (b : Int) = (2 : Int) ^ w * ((b / 2 ^ w : Nat) : Int) + ((b % 2 ^ w : Nat) : Int) := by
    have := Nat.div_add_mod b (2 ^ w)
    exact_mod_cast this.symm
  unfold wsub
  push_cast [Nat.cast_sub hle]
  have e : (a : Int) - (b : Int)
      = ((a : Int) + ((2 : Int) ^ w - ((b % 2 ^ w : Nat) : Int)))
        + (2 : Int) ^ w * (-(1 + ((b / 2 ^ w : Nat) : Int))) := by
    rw [hb]; push_cast; ring
  rw [e, Int.add_mul_emod_self_left]
  push_cast
  rfl

/-- The addition of the source is addition of integers modulo `2 ^ w`. -/
theorem wadd_cast (w a b : Nat) :
    ((wadd w a b : Nat) : Int) = ((a : Int) + (b : Int)) % (2 : Int) ^ w := by
  unfold wadd
  push_cast
  rfl

/-- Comparing an interval with the elapsed time of the source is comparing it
with the elapsed time modulo `2 ^ w`. -/
theorem le_wsub_iff (w i a b : Nat) :
    i ≤ wsub w a b ↔ (i : Int) ≤ ((a : Int) - (b : Int)) % (2 : Int) ^ w := by
  rw [← wsub_cast]
  exact Int.ofNat_le.symm

/-! ## Firing condition -/

/-- A poll without catch-up always returns, and it returns `true` exactly when
the object is not paused and the interval is at most the elapsed time of the
source. -/
theorem poll_false_eq (w fuel : Nat) (s : TimerTask) (now : Nat) :
    poll w fuel s false now
      = some (if !s.isPaused && decide (s.interval ≤ wsub w now s.lastTime)
          then fire { s with lastTime := now } now
          else { fired := false, state := s, calls := [] }) := by
  unfold poll checkInterval
  split <;> simp

/-- A poll of a paused timer, or before the interval has elapsed, returns
`false` and changes nothing, whatever the fuel and the catch-up flag. -/
theorem poll_not_fired (w fuel : Nat) (s : TimerTask) (c : Bool) (now : Nat)
    (h : s.isPaused = true ∨ ¬ s.interval ≤ wsub w now s.lastTime) :
    poll w fuel s c now = some { fired := false, state := s, calls := [] } := by
  unfold poll checkInterval
  rcases h with h | h <;> simp [h]

theorem fire_fired (s : TimerTask) (m : Nat) : (fire s m).fired = true := rfl

/-- C1. A poll with `catchUp = false` returns, and returns `true` if and only
if the timer is not paused and `(now - lastReference) mod 2 ^ w ≥ interval`; in
particular for a timer that was just constructed running at clock reading `c`;
and with `lastReference = 2 ^ w - 50`, `interval = 100` the poll at `now = 49`
returns `false` and the poll at `now = 50` returns `true`. -/
theorem poll_fires_iff (w fuel : Nat) (s : TimerTask) (now : Nat) :
    (∃ r, poll w fuel s false now = some r ∧
      (r.fired = true ↔
        (s.isPaused = false ∧
          (s.interval : Int) ≤ ((now : Int) - (s.lastTime : Int)) % (2 : Int) ^ w))) ∧
    (∀ (func : Option Nat) (I c : Nat) (auto : Bool),
      ∃ r, poll w fuel (new func I false auto c) false now = some r ∧
        (new func I false auto c).triggered = false ∧
        (r.fired = true ↔ (I : Int) ≤ ((now : Int) - (c : Int)) % (2 : Int) ^ w)) ∧
    (7 ≤ w → s.isPaused = false → s.lastTime = 2 ^ w - 50 → s.interval = 100 →
      (∃ r, poll w fuel s false 49 = some r ∧ r.fired = false) ∧
      (∃ r, poll w fuel s false 50 = some r ∧ r.fired = true)) := by
  have key : ∀ (t : TimerTask) (n : Nat), ∃ r, poll w fuel t false n = some r ∧
      (r.fired = true ↔
        (t.isPaused = false ∧
          (t.interval : Int) ≤ ((n : Int) - (t.lastTime : Int)) % (2 : Int) ^ w)) := by
    intro t n
    refine ⟨_, poll_false_eq w fuel t n, ?_⟩
    rw [← le_wsub_iff]
    by_cases hp : t.isPaused = true
    · simp [hp]
    · by_cases hi : t.interval ≤ wsub w n t.lastTime
      · simp [hp, hi, fire_fired]
      · simp [hp, hi]
  refine ⟨key s now, ?_, ?_⟩
  · intro func I c auto
    obtain ⟨r, hr, hiff⟩ := key (new func I false auto c) now
    refine ⟨r, hr, rfl, ?_⟩
    simpa [new] using hiff
  · intro hw hp hl hi
    have hM : 2 ^ 7 ≤ 2 ^ w := Nat.pow_le_pow_right (by decide) hw
    have h128 : (2 : Nat) ^ 7 = 128 := by decide
    have e49 : wsub w 49 s.lastTime = 99 := by
      unfold wsub
      rw [hl]
      generalize 2 ^ w = M at hM
      have h1 : (M - 50) % M = M - 50 := Nat.mod_eq_of_lt (by omega)
      rw [h1]
      have h2 : 49 + (M - (M - 50)) = 99 := by omega
      rw [h2]
      exact Nat.mod_eq_of_lt (by omega)
    have e50 : wsub w 50 s.lastTime = 100 := by
      unfold wsub
      rw [hl]
      generalize 2 ^ w = M at hM
      have h1 : (M - 50) % M = M - 50 := Nat.mod_eq_of_lt (by omega)
      rw [h1]
      have h2 : 50 + (M - (M - 50)) = 100 := by omega
      rw [h2]
      exact Nat.mod_eq_of_lt (by omega)
    constructor
    · refine ⟨_, poll_false_eq w fuel s 49, ?_⟩
      simp [hp, hi, e49]
    · refine ⟨_, poll_false_eq w fuel s 50, ?_⟩
      simp [hp, hi, e50, fire_fired]

/-- Witness of C1 at width 32: the clock wraps between `lastReference` and the
poll. -/
theorem poll_fires_iff_witness :
    (∃ r, poll 32 0 timerNearWrap false 49
        = some r ∧ r.fired = false) ∧
    (∃ r, poll 32 0 timerNearWrap false 50
        = some r ∧ r.fired = true) :=
  (poll_fires_iff 32 0 timerNearWrap 0).2.2
    (by decide) rfl rfl rfl

/-! ## Catch-up -/

/-- One round of the loop: the condition holds and the body is run. -/
theorem catchUpLoop_step (w interval currentTime fuel lastTime : Nat)
    (h : wadd w lastTime interval ≤ currentTime) :
    catchUpLoop w interval currentTime (fuel + 1) lastTime
      = catchUpLoop w interval currentTime fuel (wadd w lastTime interval) := by
  simp [catchUpLoop, h]

/-- The loop ends: the condition fails. -/
theorem catchUpLoop_exit (w interval currentTime fuel lastTime : Nat)
    (h : ¬ wadd w lastTime interval ≤ currentTime) :
    catchUpLoop w interval currentTime (fuel + 1) lastTime = some lastTime := by
  simp [catchUpLoop, h]

/-- Without overflow the loop terminates and advances `lastTime` by the largest
multiple of the interval that fits into the elapsed time. -/
theorem catchUpLoop_no_overflow (w I now : Nat) (hI : 0 < I) (hnow : now + I < 2 ^ w) :
    ∀ (fuel lt : Nat), lt ≤ now → (now - lt) / I < fuel →
      catchUpLoop w I now fuel lt = some (lt + I * ((now - lt) / I)) := by
  intro fuel
  induction fuel with
  | zero => intro lt _ h; exact absurd h (Nat.not_lt_zero _)
  | succ n ih =>
    intro lt hle hfuel
    have hadd : wadd w lt I = lt + I := Nat.mod_eq_of_lt (by omega)
    by_cases hc : lt + I ≤ now
    · rw [catchUpLoop_step w I now n lt (by rw [hadd]; exact hc), hadd]
      have hsplit : now - lt = (now - (lt + I)) + I := by omega
      have hdiv : (now - lt) / I = (now - (lt + I)) / I + 1 := by
        rw [hsplit, Nat.add_div_right _ hI]
      rw [ih (lt + I) hc (by omega), hdiv]
      congr 1
      ring
    · rw [catchUpLoop_exit w I now n lt (by rw [hadd]; exact hc)]
      have hdiv : (now - lt) / I = 0 := Nat.div_eq_of_lt (by omega)
      rw [hdiv]
      simp

/-- A firing poll with catch-up whose loop ends with `lastTime = lt`. -/
theorem poll_true_of_loop (w fuel : Nat) (s : TimerTask) (now lt : Nat)
    (hp : s.isPaused = false) (hi : s.interval ≤ wsub w now s.lastTime)
    (hloop : catchUpLoop w s.interval now fuel s.lastTime = some lt) :
    poll w fuel s true now = some (fire { s with lastTime := lt } now) := by
  simp [poll, checkInterval, hp, hi, hloop]

/-- C2 (evaluation of the code). Width 32, `lastReference = 2 ^ 32 - 500`,
`interval = 100`, running; the clock has wrapped and reads `now = 10`, so the
elapsed time is 510.  The poll with `catchUp = true` returns `true` but the loop
compares `lastTime + interval = 2 ^ 32 - 400` with `10` and does not run:
`lastReference` is not advanced, and the elapsed time afterwards is still
`510 ≥ interval` instead of `10`. -/
theorem catchUp_after_wrap_not_advanced :
    ((100 : Int) ≤ ((10 : Int) - ((2 ^ 32 - 500 : Nat) : Int)) % (2 : Int) ^ 32) ∧
    ∀ fuel : Nat, ∃ r, poll 32 (fuel + 1) timerBeforeWrap true 10 = some r ∧
      r.fired = true ∧ r.state.lastTime = 2 ^ 32 - 500 ∧
      ((10 : Int) - (r.state.lastTime : Int)) % (2 : Int) ^ 32 = 510 ∧
      ¬ (((10 : Int) - (r.state.lastTime : Int)) % (2 : Int) ^ 32 < 100) ∧
      ((r.state.lastTime : Int) - ((2 ^ 32 - 500 : Nat) : Int)) % (2 : Int) ^ 32 = 0 ∧
      (100 : Int) * ((((10 : Int) - ((2 ^ 32 - 500 : Nat) : Int)) % (2 : Int) ^ 32) / 100)
        = 500 := by
  refine ⟨by decide, ?_⟩
  intro fuel
  have hloop : catchUpLoop 32 100 10 (fuel + 1) (2 ^ 32 - 500) = some (2 ^ 32 - 500) :=
    catchUpLoop_exit 32 100 10 fuel (2 ^ 32 - 500) (by decide)
  have hcond : (100 : Nat) ≤ wsub 32 10 (2 ^ 32 - 500) := by decide
  exact ⟨fire timerBeforeWrap 10,
    poll_true_of_loop 32 (fuel + 1) timerBeforeWrap 10 (2 ^ 32 - 500) rfl hcond hloop,
    rfl, rfl, by decide, by decide, by decide, by decide⟩

/-- The elapsed time of the source when the clock has not wrapped. -/
theorem wsub_of_le (w a b : Nat) (hba : b ≤ a) (ha : a < 2 ^ w) : wsub w a b = a - b := by
  unfold wsub
  have hb : b % 2 ^ w = b := Nat.mod_eq_of_lt (by omega)
  rw [hb]
  have e : a + (2 ^ w - b) = (a - b) + 2 ^ w := by omega
  rw [e, Nat.add_mod_right]
  exact Nat.mod_eq_of_lt (by omega)

/-- C3. Catch-up without wraparound: for a running timer with `interval > 0`,
`lastReference ≤ now`, `now - lastReference ≥ interval` and
`now + interval ≤ 2 ^ w - 1`, the poll with `catchUp = true` returns `true`
(with any fuel above the number of whole intervals elapsed) and sets
`lastReference' = lastReference + interval * ((now - lastReference) / interval)`,
so `lastReference' ≤ now < lastReference' + interval` and `lastReference'` is
congruent to `lastReference` modulo the interval.  For a repeating timer the
next poll returns `false` at every reading from `now` up to
`lastReference' + interval` excluded and fires at `lastReference' + interval`. -/
theorem poll_catchUp_no_overflow (w fuel : Nat) (s : TimerTask) (now : Nat)
    (hp : s.isPaused = false) (hI : 0 < s.interval) (hle : s.lastTime ≤ now)
    (hel : s.interval ≤ now - s.lastTime) (hno : now + s.interval ≤ 2 ^ w - 1)
    (hfuel : (now - s.lastTime) / s.interval < fuel) :
    ∃ r, poll w fuel s true now = some r ∧ r.fired = true ∧
      r.state.lastTime = s.lastTime + s.interval * ((now - s.lastTime) / s.interval) ∧
      r.state.interval = s.interval ∧
      r.state.lastTime ≤ now ∧ now < r.state.lastTime + s.interval ∧
      r.state.lastTime % s.interval = s.lastTime % s.interval ∧
      (s.autoRetrigger = true →
        (∀ (t : Nat) (c : Bool) (fuel1 : Nat), now ≤ t → t < r.state.lastTime + s.interval →
          ∃ r1, poll w fuel1 r.state c t = some r1 ∧ r1.fired = false) ∧
        (∀ fuel1 : Nat, ∃ r1,
          poll w fuel1 r.state false (r.state.lastTime + s.interval) = some r1 ∧
            r1.fired = true)) := by
  have hM : 0 < 2 ^ w := Nat.pos_pow_of_pos w (by decide)
  have hnow : now + s.interval < 2 ^ w := by omega
  have hcond : s.interval ≤ wsub w now s.lastTime := by
    rw [wsub_of_le w now s.lastTime hle (by omega)]; exact hel
  have hloop := catchUpLoop_no_overflow w s.interval now hI hnow fuel s.lastTime hle hfuel
  have hpoll := poll_true_of_loop w fuel s now _ hp hcond hloop
  have hlow : s.lastTime + s.interval * ((now - s.lastTime) / s.interval) ≤ now := by
    have := Nat.mul_div_le (now - s.lastTime) s.interval
    omega
  have hhigh : now < s.lastTime + s.interval * ((now - s.lastTime) / s.interval)
      + s.interval := by
    have := Nat.lt_mul_div_succ (now - s.lastTime) hI
    rw [Nat.mul_add, Nat.mul_one] at this
    omega
  have hstate : ∀ (a : Bool), s.autoRetrigger = a →
      (fire { s with lastTime :=
          s.lastTime + s.interval * ((now - s.lastTime) / s.interval) } now).state.lastTime
        = s.lastTime + s.interval * ((now - s.lastTime) / s.interval) ∧
      (fire { s with lastTime :=
          s.lastTime + s.interval * ((now - s.lastTime) / s.interval) } now).state.interval
        = s.interval := by
    intro a ha
    cases a <;> simp [fire, pause, ha, hp]
  obtain ⟨hlt, hiv⟩ := hstate s.autoRetrigger rfl
  refine ⟨_, hpoll, rfl, hlt, hiv, ?_, ?_, ?_, ?_⟩
  · rw [hlt]; exact hlow
  · rw [hlt]; exact hhigh
  · rw [hlt]; exact Nat.add_mul_mod_self_left _ _ _
  · intro hauto
    have hst : (fire { s with lastTime :=
          s.lastTime + s.interval * ((now - s.lastTime) / s.interval) } now).state
        = { s with lastTime :=
          s.lastTime + s.interval * ((now - s.lastTime) / s.interval) } := by
      simp [fire, hauto]
    rw [hst]
    constructor
    · intro t c fuel1 ht1 ht2
      have hw : wsub w t (s.lastTime + s.interval * ((now - s.lastTime) / s.interval))
          = t - (s.lastTime + s.interval * ((now - s.lastTime) / s.interval)) :=
        wsub_of_le w t _ (by omega) (by simp only at ht2; omega)
      have hnot : ¬ s.interval ≤
          wsub w t (s.lastTime + s.interval * ((now - s.lastTime) / s.interval)) := by
        rw [hw]; simp only at ht2; omega
      exact ⟨_, poll_not_fired w fuel1 _ c t (Or.inr hnot), rfl⟩
    · intro fuel1
      refine ⟨_, poll_false_eq w fuel1 _ _, ?_⟩
      have hw : wsub w (s.lastTime + s.interval * ((now - s.lastTime) / s.interval)
            + s.interval)
          (s.lastTime + s.interval * ((now - s.lastTime) / s.interval)) = s.interval := by
        rw [wsub_of_le w _ _ (by omega) (by omega)]; omega
      simp [hp, hw, fire_fired]

/-- Witness of C3, the scenario of the specification at width 32: interval 100,
`lastReference = 0`, poll with catch-up at 350. -/
theorem poll_catchUp_no_overflow_witness :
    ∃ r, poll 32 4 timer100 true 350 = some r ∧ r.fired = true ∧
      r.state.lastTime = 300 ∧
      (∃ r1, poll 32 0 r.state false 399 = some r1 ∧ r1.fired = false) ∧
      (∃ r1, poll 32 0 r.state false 400 = some r1 ∧ r1.fired = true) := by
  obtain ⟨r, h1, h2, h3, _, _, _, _, h8⟩ :=
    poll_catchUp_no_overflow 32 4 timer100 350 rfl (by decide) (by decide) (by decide)
      (by decide) (by decide)
  have h300 : r.state.lastTime = 300 := by rw [h3]; decide
  obtain ⟨ha, hb⟩ := h8 rfl
  refine ⟨r, h1, h2, h300, ha 399 false 0 (by decide) (by rw [h300]; decide), ?_⟩
  have := hb 0
  rw [h300] at this
  exact this

/-! ## Pause and resume -/

/-- A pause of a running timer followed by a resume, field by field. -/
theorem resume_pause_eq (w : Nat) (s : TimerTask) (p r : Nat) (hp : s.isPaused = false) :
    resume w (pause s p) r
      = { s with isPaused := false, pauseTime := p,
                 lastTime := wadd w s.lastTime (wsub w r p) } := by
  simp [resume, pause, hp]

/-- The reference after a pause at `p` and a resume at `r`, as an integer
modulo `2 ^ w`. -/
theorem wadd_wsub_modEq (w L r p : Nat) :
    Int.ModEq ((2 : Int) ^ w) ((wadd w L (wsub w r p) : Nat) : Int)
      ((L : Int) + ((r : Int) - (p : Int))) := by
  rw [wadd_cast, wsub_cast]
  exact (Int.mod_modEq _ _).trans ((Int.ModEq.refl _).add (Int.mod_modEq _ _))

/-- The reference after a pause at `p` and a resume at `r` is
`(lastReference + (r - p)) mod 2 ^ w`. -/
theorem wadd_wsub_cast (w L r p : Nat) :
    ((wadd w L (wsub w r p) : Nat) : Int)
      = ((L : Int) + ((r : Int) - (p : Int))) % (2 : Int) ^ w := by
  have h : ((wadd w L (wsub w r p) : Nat) : Int) % (2 : Int) ^ w
      = ((L : Int) + ((r : Int) - (p : Int))) % (2 : Int) ^ w := wadd_wsub_modEq w L r p
  rw [← h]
  have hlt : ((wadd w L (wsub w r p) : Nat) : Int) < (2 : Int) ^ w := by
    exact_mod_cast wadd_lt w L (wsub w r p)
  exact (Int.emod_eq_of_lt (Int.ofNat_nonneg _) hlt).symm

/-- C4. Pause at `p` followed by resume at `r` on a running timer: the timer is
running again, its elapsed time at `r` is its elapsed time at `p`,
`lastReference' = (lastReference + (r - p)) mod 2 ^ w`, no other field but
`pauseStart` changes, and a later poll at `t` with `catchUp = false` fires iff
`((t - lastReference) - (r - p)) mod 2 ^ w ≥ interval`. -/
theorem pause_resume_freezes (w : Nat) (s : TimerTask) (p r : Nat)
    (hp : s.isPaused = false) :
    (resume w (pause s p) r).isPaused = false ∧
    (((r : Int) - ((resume w (pause s p) r).lastTime : Int)) % (2 : Int) ^ w
      = ((p : Int) - (s.lastTime : Int)) % (2 : Int) ^ w) ∧
    (((resume w (pause s p) r).lastTime : Int)
      = ((s.lastTime : Int) + ((r : Int) - (p : Int))) % (2 : Int) ^ w) ∧
    (resume w (pause s p) r).interval = s.interval ∧
    (resume w (pause s p) r).task = s.task ∧
    (resume w (pause s p) r).autoRetrigger = s.autoRetrigger ∧
    (resume w (pause s p) r).triggered = s.triggered ∧
    (∀ (fuel t : Nat), ∃ res, poll w fuel (resume w (pause s p) r) false t = some res ∧
      (res.fired = true ↔
        (s.interval : Int)
          ≤ (((t : Int) - (s.lastTime : Int)) - ((r : Int) - (p : Int))) % (2 : Int) ^ w)) := by
  have hmod := wadd_wsub_modEq w s.lastTime r p
  rw [resume_pause_eq w s p r hp]
  refine ⟨rfl, ?_, ?_, rfl, rfl, rfl, rfl, ?_⟩
  · have h := (Int.ModEq.refl (r : Int)).sub hmod
    have e : (r : Int) - ((s.lastTime : Int) + ((r : Int) - (p : Int)))
        = (p : Int) - (s.lastTime : Int) := by ring
    rw [e] at h
    exact h
  · exact wadd_wsub_cast w s.lastTime r p
  · intro fuel t
    refine ⟨_, poll_false_eq w fuel _ t, ?_⟩
    have h := (Int.ModEq.refl (t : Int)).sub hmod
    have e : (t : Int) - ((s.lastTime : Int) + ((r : Int) - (p : Int)))
        = ((t : Int) - (s.lastTime : Int)) - ((r : Int) - (p : Int)) := by ring
    rw [e] at h
    have h2 : ((t : Int) - ((wadd w s.lastTime (wsub w r p) : Nat) : Int)) % (2 : Int) ^ w
        = (((t : Int) - (s.lastTime : Int)) - ((r : Int) - (p : Int))) % (2 : Int) ^ w := h
    rw [← h2, ← le_wsub_iff]
    by_cases hi : s.interval ≤ wsub w t (wadd w s.lastTime (wsub w r p))
    · simp [hi, fire_fired]
    · simp [hi]

/-- Witness of C4 at width 32: interval 100, `lastReference = 0`, pause at 50,
resume at 200. -/
theorem pause_resume_freezes_witness :
    (resume 32 (pause timer100 50) 200).isPaused = false ∧
    ((resume 32 (pause timer100 50) 200).lastTime : Int) = 150 :=
  ⟨(pause_resume_freezes 32 timer100 50 200 rfl).1,
   (pause_resume_freezes 32 timer100 50 200 rfl).2.2.1.trans (by decide)⟩

/-- The scenario of C5 at any width of at least 9 bits: the reference after
pause at 50 and resume at 200 is 150. -/
theorem scenario_reference (w : Nat) (hw : 9 ≤ w) :
    resume w (pause timer100 50) 200
      = { timer100 with pauseTime := 50, lastTime := 150 } := by
  have hM : 2 ^ 9 ≤ 2 ^ w := Nat.pow_le_pow_right (by decide) hw
  have h512 : (2 : Nat) ^ 9 = 512 := by decide
  have h1 : wsub w 200 50 = 150 := by
    rw [wsub_of_le w 200 50 (by decide) (by omega)]
  have h2 : wadd w 0 150 = 150 := Nat.mod_eq_of_lt (by omega)
  rw [resume_pause_eq w timer100 50 200 rfl]
  show ({ timer100 with
      isPaused := false, pauseTime := 50, lastTime := wadd w 0 (wsub w 200 50) } : TimerTask)
    = _
  rw [h1, h2]
  rfl

/-- C5 (as stated, refuted). Width 32, interval 100, `lastReference = 0`, pause
at 50, resume at 200: the poll at 260 does not return `false`; it fires. -/
theorem scenario_poll_260_not_false :
    ¬ ((poll 32 0 (resume 32 (pause timer100 50) 200) false 260).map PollResult.fired
          = some false ∧
       (poll 32 0 (resume 32 (pause timer100 50) 200) false 300).map PollResult.fired
          = some true) := by
  decide

/-- C5 (amended). Interval 100, `lastReference = 0`, running and repeating;
after pause at 50 and resume at 200 the reference is 150, so a poll returns
`false` at every reading from 200 up to 250 excluded, and a poll at 250, at 260
(effective elapsed time 110) or at 300 returns `true`. -/
theorem scenario_pause_resume (w : Nat) (hw : 9 ≤ w) :
    (resume w (pause timer100 50) 200).lastTime = 150 ∧
    (∀ (t : Nat) (c : Bool) (fuel : Nat), 200 ≤ t → t < 250 →
      (poll w fuel (resume w (pause timer100 50) 200) c t).map PollResult.fired
        = some false) ∧
    (∀ fuel : Nat,
      (poll w fuel (resume w (pause timer100 50) 200) false 250).map PollResult.fired
        = some true) ∧
    (∀ fuel : Nat,
      (poll w fuel (resume w (pause timer100 50) 200) false 260).map PollResult.fired
        = some true) ∧
    (∀ fuel : Nat,
      (poll w fuel (resume w (pause timer100 50) 200) false 300).map PollResult.fired
        = some true) := by
  have hM : 2 ^ 9 ≤ 2 ^ w := Nat.pow_le_pow_right (by decide) hw
  have h512 : (2 : Nat) ^ 9 = 512 := by decide
  have hfire : ∀ (t fuel : Nat), 250 ≤ t → t < 512 →
      (poll w fuel ({ timer100 with pauseTime := 50, lastTime := 150 } : TimerTask)
        false t).map PollResult.fired = some true := by
    intro t fuel h1 h2
    rw [poll_false_eq]
    have hs : wsub w t 150 = t - 150 := wsub_of_le w t 150 (by omega) (by omega)
    have hi : (100 : Nat) ≤ wsub w t 150 := by rw [hs]; omega
    simp [timer100, new, hi, fire_fired]
  rw [scenario_reference w hw]
  refine ⟨rfl, ?_, fun fuel => hfire 250 fuel (by decide) (by decide),
    fun fuel => hfire 260 fuel (by decide) (by decide),
    fun fuel => hfire 300 fuel (by decide) (by decide)⟩
  intro t c fuel h1 h2
  have hs : wsub w t 150 = t - 150 := wsub_of_le w t 150 (by omega) (by omega)
  have hi : ¬ (100 : Nat) ≤ wsub w t 150 := by rw [hs]; omega
  rw [poll_not_fired w fuel _ c t (Or.inr hi)]
  rfl

/-- Witness of the amended C5 at width 32. -/
theorem scenario_pause_resume_witness :
    (resume 32 (pause timer100 50) 200).lastTime = 150 ∧
    (poll 32 0 (resume 32 (pause timer100 50) 200) false 240).map PollResult.fired
      = some false ∧
    (poll 32 0 (resume 32 (pause timer100 50) 200) false 260).map PollResult.fired
      = some true :=
  ⟨(scenario_pause_resume 32 (by decide)).1,
   (scenario_pause_resume 32 (by decide)).2.1 240 false 0 (by decide) (by decide),
   (scenario_pause_resume 32 (by decide)).2.2.2.1 0⟩

/-- C6 (evaluation of the code). Width 32: a timer constructed paused at clock
reading 1000 with interval 100 and resumed at 2000 has `lastReference = 3000`,
not 2000, because the constructor leaves `pauseStart = 0`; the poll at 2000
fires although no time has elapsed since the resume. -/
theorem constructed_paused_then_resumed :
    (new none 100 true true 1000).pauseTime = 0 ∧
    (resume 32 (new none 100 true true 1000) 2000).lastTime = 3000 ∧
    (poll 32 0 (resume 32 (new none 100 true true 1000) 2000) false 2000).map
        PollResult.fired = some true := by
  decide

/-- A second pause changes nothing. -/
theorem pause_pause (s : TimerTask) (p1 p2 : Nat) : pause (pause s p1) p2 = pause s p1 := by
  cases hp : s.isPaused <;> simp [pause, hp]

/-- C7. Pause at `p1`, pause at `p2`, resume at `r` gives the same object as
pause at `p1`, resume at `r`; on a running timer `lastReference` is shifted by
`(r - p1) mod 2 ^ w`. -/
theorem pause_twice_resume (w : Nat) (s : TimerTask) (p1 p2 r : Nat) :
    resume w (pause (pause s p1) p2) r = resume w (pause s p1) r ∧
    (s.isPaused = false →
      (resume w (pause (pause s p1) p2) r).lastTime
        = wadd w s.lastTime (wsub w r p1) ∧
      ((resume w (pause (pause s p1) p2) r).lastTime : Int)
        = ((s.lastTime : Int) + ((r : Int) - (p1 : Int))) % (2 : Int) ^ w) := by
  rw [pause_pause]
  refine ⟨rfl, fun hp => ?_⟩
  rw [resume_pause_eq w s p1 r hp]
  exact ⟨rfl, wadd_wsub_cast w s.lastTime r p1⟩

/-- Witness of C7 at width 32: pauses at 50 and 70, resume at 200, on a timer
with `lastReference = 0`; the reference is shifted by 150. -/
theorem pause_twice_resume_witness :
    (resume 32 (pause (pause timer100 50) 70) 200).lastTime = 150 :=
  ((pause_twice_resume 32 timer100 50 70 200).2 rfl).1.trans (by decide)

/-! ## One-shot mode -/

/-- What a call of `checkInterval` that returns can have done. -/
theorem poll_cases (w fuel : Nat) (s : TimerTask) (c : Bool) (now : Nat) (r : PollResult)
    (h : poll w fuel s c now = some r) :
    (r = { fired := false, state := s, calls := [] }) ∨
    (s.isPaused = false ∧ s.interval ≤ wsub w now s.lastTime ∧
      ∃ lt, r = fire { s with lastTime := lt } now) := by
  unfold poll checkInterval at h
  by_cases hcond : (!s.isPaused && decide (s.interval ≤ wsub w now s.lastTime)) = true
  · right
    have hc := hcond
    simp only [Bool.and_eq_true, Bool.not_eq_true', decide_eq_true_eq] at hc
    rw [if_pos hcond] at h
    refine ⟨hc.1, hc.2, ?_⟩
    cases c with
    | false =>
      simp only [Bool.false_eq_true, if_false, Option.some.injEq] at h
      exact ⟨now, h.symm⟩
    | true =>
      simp only [if_true] at h
      cases hl : catchUpLoop w s.interval now fuel s.lastTime with
      | none => rw [hl] at h; exact absurd h (by simp)
      | some lt =>
        rw [hl] at h
        simp only [Option.some.injEq] at h
        exact ⟨lt, h.symm⟩
  · left
    rw [if_neg hcond] at h
    simp only [Option.some.injEq] at h
    exact h.symm

/-- The object after a firing of a running one-shot timer. -/
theorem fire_oneShot (s : TimerTask) (m : Nat) (hp : s.isPaused = false)
    (ha : s.autoRetrigger = false) :
    (fire s m).state = { s with triggered := true, isPaused := true, pauseTime := m } := by
  simp [fire, pause, hp, ha]

/-- The object after a firing of a repeating timer. -/
theorem fire_repeating (s : TimerTask) (m : Nat) (ha : s.autoRetrigger = true) :
    (fire s m).state = s := by
  simp [fire, ha]

/-- C8. A running one-shot timer (`autoRetrigger = false`) polled at `now` with
`(now - lastReference) mod 2 ^ w ≥ interval`: the poll without catch-up returns
`true`; a poll with catch-up that returns, returns `true`, and it does return
when nothing overflows and the fuel exceeds the number of whole intervals
elapsed.  A poll that returned leaves `latched = true`, `paused = true`,
`pauseStart = now`, and from that state every poll, at any clock reading, with
either catch-up flag and any fuel, returns `false` and leaves the state as it
is. -/
theorem oneShot_fires_and_latches (w fuel : Nat) (s : TimerTask) (now : Nat)
    (hp : s.isPaused = false) (ha : s.autoRetrigger = false)
    (hel : (s.interval : Int) ≤ ((now : Int) - (s.lastTime : Int)) % (2 : Int) ^ w) :
    (∃ r, poll w fuel s false now = some r) ∧
    (0 < s.interval → s.lastTime ≤ now → now + s.interval < 2 ^ w →
      (now - s.lastTime) / s.interval < fuel → ∃ r, poll w fuel s true now = some r) ∧
    (∀ (c : Bool) (r : PollResult), poll w fuel s c now = some r →
      r.fired = true ∧ r.state.triggered = true ∧ r.state.isPaused = true ∧
      r.state.pauseTime = now ∧
      ∀ (c1 : Bool) (fuel1 t : Nat),
        poll w fuel1 r.state c1 t = some { fired := false, state := r.state, calls := [] }) := by
  have hcond : s.interval ≤ wsub w now s.lastTime := (le_wsub_iff w _ _ _).2 hel
  refine ⟨⟨_, poll_false_eq w fuel s now⟩, ?_, ?_⟩
  · intro hI hle hno hfuel
    exact ⟨_, poll_true_of_loop w fuel s now _ hp hcond
      (catchUpLoop_no_overflow w s.interval now hI hno fuel s.lastTime hle hfuel)⟩
  · intro c r hr
    rcases poll_cases w fuel s c now r hr with h | ⟨_, _, lt, h⟩
    · exfalso
      have hne : poll w fuel s c now ≠ some { fired := false, state := s, calls := [] } := by
        unfold poll checkInterval
        cases c with
        | false => simp [hp, hcond, fire]
        | true =>
          cases hl : catchUpLoop w s.interval now fuel s.lastTime <;>
            simp [hp, hcond, fire, hl]
      exact hne (h ▸ hr)
    · have hst : r.state
          = { s with lastTime := lt, triggered := true, isPaused := true, pauseTime := now } := by
        rw [h]
        exact fire_oneShot { s with lastTime := lt } now hp ha
      refine ⟨by rw [h]; rfl, by rw [hst], by rw [hst], by rw [hst], ?_⟩
      intro c1 fuel1 t
      exact poll_not_fired w fuel1 r.state c1 t (Or.inl (by rw [hst]))

/-- Witness of C8 at width 32: interval 100, constructed one-shot at clock
reading 0, polled at 100 and then at 250. -/
theorem oneShot_fires_and_latches_witness :
    ∃ r, poll 32 0 oneShot100 false 100 = some r ∧ r.fired = true ∧
      r.state.triggered = true ∧ r.state.isPaused = true ∧ r.state.pauseTime = 100 ∧
      poll 32 0 r.state true 250 = some { fired := false, state := r.state, calls := [] } := by
  have h := oneShot_fires_and_latches 32 0 oneShot100 100 rfl rfl (by decide)
  obtain ⟨r, hr⟩ := h.1
  obtain ⟨h1, h2, h3, h4, h5⟩ := h.2.2 false r hr
  exact ⟨r, hr, h1, h2, h3, h4, h5 true 0 250⟩

/-- C9 (as stated, refuted). Width 32, one-shot timer with interval 100
constructed at clock reading 0: the calls poll at 100, resume at 150, poll at
250 contain no `rearm`, their clock readings do not decrease, and two polls
return `true`; after the resume the timer is latched and not paused. -/
theorem oneShot_fires_twice_after_resume :
    oneShot100.autoRetrigger = false ∧
    List.all [Op.checkInterval false 100, Op.resume 150, Op.checkInterval false 250]
      Op.noRearm = true ∧
    clockMonotone 0 [Op.checkInterval false 100, Op.resume 150, Op.checkInterval false 250]
      = true ∧
    firings 32 0 oneShot100
      [Op.checkInterval false 100, Op.resume 150, Op.checkInterval false 250] = 2 ∧
    (runOps 32 0 oneShot100 [Op.checkInterval false 100, Op.resume 150]).map
      (fun s => (s.triggered, s.isPaused)) = some (true, false) := by
  decide

/-- A call other than `resume` and `rearm` on a paused timer returns, does not
fire, and leaves the timer paused with `latched` and `autoRetrigger` as they
were. -/
theorem apply_paused (w fuel : Nat) (s : TimerTask) (op : Op) (hop : op.noRestart = true)
    (hp : s.isPaused = true) :
    ∃ r, Op.apply w fuel s op = some r ∧ r.fired = false ∧ r.state.isPaused = true ∧
      r.state.triggered = s.triggered ∧ r.state.autoRetrigger = s.autoRetrigger := by
  cases op with
  | setTask func => exact ⟨_, rfl, rfl, hp, rfl, rfl⟩
  | setInterval i => exact ⟨_, rfl, rfl, hp, rfl, rfl⟩
  | checkInterval c now =>
    exact ⟨_, poll_not_fired w fuel s c now (Or.inl hp), rfl, hp, rfl, rfl⟩
  | pause now =>
    refine ⟨_, rfl, rfl, ?_, ?_, ?_⟩ <;> simp [pause, hp]
  | resume now => exact absurd hop (by simp [Op.noRestart])
  | rearm a b now => exact absurd hop (by simp [Op.noRestart])

/-- On a paused timer no sequence of calls without `resume` and `rearm` fires,
and the timer stays paused with the same `latched`. -/
theorem paused_stays_silent (w fuel : Nat) (ops : List Op) :
    ∀ s : TimerTask, ops.all Op.noRestart = true → s.isPaused = true →
      firings w fuel s ops = 0 ∧
      ∃ s1, runOps w fuel s ops = some s1 ∧ s1.isPaused = true ∧
        s1.triggered = s.triggered := by
  induction ops with
  | nil => intro s _ hp; exact ⟨rfl, s, rfl, hp, rfl⟩
  | cons op ops ih =>
    intro s hall hp
    rw [List.all_cons, Bool.and_eq_true] at hall
    obtain ⟨r, hr, hf, hp1, ht1, _⟩ := apply_paused w fuel s op hall.1 hp
    obtain ⟨h0, s1, hs1, hp2, ht2⟩ := ih r.state hall.2 hp1
    refine ⟨?_, s1, ?_, hp2, ht2.trans ht1⟩
    · simp [firings, hr, hf, h0]
    · simp [runOps, hr, hs1]

/-- A call other than `resume` and `rearm` on a one-shot timer: if it returns
`true` the timer is paused and latched afterwards; otherwise the timer is still
a one-shot timer. -/
theorem apply_oneShot (w fuel : Nat) (s : TimerTask) (op : Op) (r : PollResult)
    (hop : op.noRestart = true) (ha : s.autoRetrigger = false)
    (hr : Op.apply w fuel s op = some r) :
    r.state.autoRetrigger = false ∧
    (r.fired = true → r.state.isPaused = true ∧ r.state.triggered = true) := by
  cases op with
  | setTask func =>
    simp only [Op.apply, Option.some.injEq] at hr
    subst hr
    exact ⟨ha, fun h => absurd h (by simp)⟩
  | setInterval i =>
    simp only [Op.apply, Option.some.injEq] at hr
    subst hr
    exact ⟨ha, fun h => absurd h (by simp)⟩
  | checkInterval c now =>
    rcases poll_cases w fuel s c now r hr with h | ⟨hp, _, lt, h⟩
    · subst h
      exact ⟨ha, fun h => absurd h (by simp)⟩
    · have hst : r.state
          = { s with lastTime := lt, triggered := true, isPaused := true, pauseTime := now } := by
        rw [h]
        exact fire_oneShot { s with lastTime := lt } now hp ha
      rw [hst]
      exact ⟨ha, fun _ => ⟨rfl, rfl⟩⟩
  | pause now =>
    simp only [Op.apply, Option.some.injEq] at hr
    subst hr
    refine ⟨?_, fun h => absurd h (by simp)⟩
    cases hp : s.isPaused <;> simp [pause, hp, ha]
  | resume now => exact absurd hop (by simp [Op.noRestart])
  | rearm a b now => exact absurd hop (by simp [Op.noRestart])

/-- The number of firings of a one-shot timer over calls without `resume` and
`rearm`. -/
theorem firings_oneShot_le_one (w fuel : Nat) (ops : List Op) :
    ∀ s : TimerTask, ops.all Op.noRestart = true → s.autoRetrigger = false →
      firings w fuel s ops ≤ 1 := by
  induction ops with
  | nil => intro s _ _; exact Nat.zero_le _
  | cons op ops ih =>
    intro s hall ha
    rw [List.all_cons, Bool.and_eq_true] at hall
    cases hr : Op.apply w fuel s op with
    | none => simp [firings, hr]
    | some r =>
      obtain ⟨ha1, hfire⟩ := apply_oneShot w fuel s op r hall.1 ha hr
      cases hf : r.fired with
      | false =>
        have := ih r.state hall.2 ha1
        simp [firings, hr, hf, this]
      | true =>
        have h0 := (paused_stays_silent w fuel ops r.state hall.2 (hfire hf).1).1
        simp [firings, hr, hf, h0]

/-- C9 (amended). For a timer with `autoRetrigger = false`, in every finite
sequence of calls drawn from poll, pause, setInterval and setTask (no `resume`
and no `rearm`), at arbitrary clock readings, at most one poll returns `true`;
and after a one-shot firing every such sequence of calls returns, fires no
more, and ends in a state with `latched = true` and `paused = true`. -/
theorem oneShot_at_most_one_firing (w fuel : Nat) (s : TimerTask) (ops : List Op)
    (ha : s.autoRetrigger = false) (hops : ops.all Op.noRestart = true) :
    firings w fuel s ops ≤ 1 ∧
    (∀ (c : Bool) (now : Nat) (r : PollResult),
      poll w fuel s c now = some r → r.fired = true →
        firings w fuel r.state ops = 0 ∧
        ∃ s1, runOps w fuel r.state ops = some s1 ∧
          s1.triggered = true ∧ s1.isPaused = true) := by
  refine ⟨firings_oneShot_le_one w fuel ops s hops ha, ?_⟩
  intro c now r hr hf
  obtain ⟨_, hfire⟩ := apply_oneShot w fuel s (Op.checkInterval c now) r rfl ha hr
  obtain ⟨hp, ht⟩ := hfire hf
  obtain ⟨h0, s1, hs1, hp1, ht1⟩ := paused_stays_silent w fuel ops r.state hops hp
  exact ⟨h0, s1, hs1, ht1.trans ht, hp1⟩

/-- Witness of the amended C9 at width 32: a one-shot timer with interval 100
polled at 100, paused at 120, polled at 250, given interval 10 and polled with
catch-up at 300 fires once. -/
theorem oneShot_at_most_one_firing_witness :
    firings 32 5 oneShot100
      [Op.checkInterval false 100, Op.pause 120, Op.checkInterval false 250,
        Op.setInterval 10, Op.checkInterval true 300] ≤ 1 ∧
    firings 32 5 oneShot100
      [Op.checkInterval false 100, Op.pause 120, Op.checkInterval false 250,
        Op.setInterval 10, Op.checkInterval true 300] = 1 :=
  ⟨(oneShot_at_most_one_firing 32 5 oneShot100
      [Op.checkInterval false 100, Op.pause 120, Op.checkInterval false 250,
        Op.setInterval 10, Op.checkInterval true 300] rfl (by decide)).1,
   by decide⟩

/-! ## Re-arming -/

/-- C10. After `rearm(true, false)` at clock reading `r`, whatever the state
before: `paused = true`, `latched = false`, `lastReference = r`,
`pauseStart = r`, and interval, callback and `autoRetrigger` are unchanged. -/
theorem rearm_reset_stopped (w : Nat) (s : TimerTask) (r : Nat) :
    (rearmAt w s true false r).isPaused = true ∧
    (rearmAt w s true false r).triggered = false ∧
    (rearmAt w s true false r).lastTime = r ∧
    (rearmAt w s true false r).pauseTime = r ∧
    (rearmAt w s true false r).interval = s.interval ∧
    (rearmAt w s true false r).task = s.task ∧
    (rearmAt w s true false r).autoRetrigger = s.autoRetrigger := by
  cases hp : s.isPaused <;> simp [rearmAt, rearm, pause, hp]

/-- Whether a poll without catch-up fires, in terms of the elapsed time modulo
`2 ^ w`. -/
theorem poll_false_fired_iff (w fuel : Nat) (t : TimerTask) (n : Nat) :
    ∃ r, poll w fuel t false n = some r ∧
      (r.fired = true ↔
        (t.isPaused = false ∧
          (t.interval : Int) ≤ ((n : Int) - (t.lastTime : Int)) % (2 : Int) ^ w)) := by
  refine ⟨_, poll_false_eq w fuel t n, ?_⟩
  rw [← le_wsub_iff]
  by_cases hp : t.isPaused = true
  · simp [hp]
  · by_cases hi : t.interval ≤ wsub w n t.lastTime
    · simp [hp, hi, fire_fired]
    · simp [hp, hi]

/-- Adding to a reference `f` the time elapsed from `f` to `r` gives `r`. -/
theorem wadd_wsub_self (w f r : Nat) : wadd w f (wsub w r f) = r % 2 ^ w := by
  have h := wadd_wsub_cast w f r f
  have e : (f : Int) + ((r : Int) - (f : Int)) = (r : Int) := by ring
  rw [e] at h
  have h2 : ((r % 2 ^ w : Nat) : Int) = (r : Int) % (2 : Int) ^ w := by
    push_cast
    rfl
  rw [← h2] at h
  exact_mod_cast h

/-- The object after `rearm(true, true)` at a clock reading `r` of width `w`. -/
theorem rearmAt_true_true (w : Nat) (s : TimerTask) (r : Nat) (hr : r < 2 ^ w) :
    rearmAt w s true true r
      = { s with triggered := false, lastTime := r, isPaused := false,
                 pauseTime := if s.isPaused then r else s.pauseTime } := by
  have h : wadd w r (wsub w r r) = r := by
    rw [wadd_wsub_self, Nat.mod_eq_of_lt hr]
  cases hp : s.isPaused <;> simp [rearmAt, rearm, resume, hp, h]

/-- C11. After `rearm(true, true)` at a clock reading `r`, whatever the state
before: `paused = false`, `latched = false`, `lastReference = r`, interval,
callback and `autoRetrigger` unchanged, and a following poll at `t` with
`catchUp = false` returns `true` iff `(t - r) mod 2 ^ w ≥ interval`. -/
theorem rearm_default_fresh_cycle (w : Nat) (s : TimerTask) (r : Nat) (hr : r < 2 ^ w) :
    (rearmAt w s true true r).isPaused = false ∧
    (rearmAt w s true true r).triggered = false ∧
    (rearmAt w s true true r).lastTime = r ∧
    (rearmAt w s true true r).interval = s.interval ∧
    (rearmAt w s true true r).task = s.task ∧
    (rearmAt w s true true r).autoRetrigger = s.autoRetrigger ∧
    (∀ (fuel t : Nat), ∃ res, poll w fuel (rearmAt w s true true r) false t = some res ∧
      (res.fired = true ↔
        (s.interval : Int) ≤ ((t : Int) - (r : Int)) % (2 : Int) ^ w)) := by
  rw [rearmAt_true_true w s r hr]
  refine ⟨rfl, rfl, rfl, rfl, rfl, rfl, ?_⟩
  intro fuel t
  obtain ⟨res, hres, hiff⟩ := poll_false_fired_iff w fuel
    { s with triggered := false, lastTime := r, isPaused := false,
             pauseTime := if s.isPaused then r else s.pauseTime } t
  exact ⟨res, hres, by simpa using hiff⟩

/-- Witness of C11 at width 32: a one-shot timer with interval 100 fires at
100, is re-armed at 150, does not fire at 249 and fires at 250. -/
theorem rearm_default_fresh_cycle_witness :
    ∃ r, poll 32 0 oneShot100 false 100 = some r ∧ r.state.triggered = true ∧
      r.state.isPaused = true ∧
      (rearmAt 32 r.state true true 150).isPaused = false ∧
      (rearmAt 32 r.state true true 150).triggered = false ∧
      (rearmAt 32 r.state true true 150).lastTime = 150 ∧
      (poll 32 0 (rearmAt 32 r.state true true 150) false 249).map PollResult.fired
        = some false ∧
      (poll 32 0 (rearmAt 32 r.state true true 150) false 250).map PollResult.fired
        = some true :=
  ⟨fire { oneShot100 with lastTime := 100 } 100, rfl, rfl, rfl,
    (rearm_default_fresh_cycle 32 (fire { oneShot100 with lastTime := 100 } 100).state 150
      (by decide)).1,
    (rearm_default_fresh_cycle 32 (fire { oneShot100 with lastTime := 100 } 100).state 150
      (by decide)).2.1,
    (rearm_default_fresh_cycle 32 (fire { oneShot100 with lastTime := 100 } 100).state 150
      (by decide)).2.2.1,
    by decide, by decide⟩

/-! ## Termination of the catch-up loop -/

/-- With interval 0 and a reference that is not after the clock reading, the
condition of the loop holds forever: no amount of fuel suffices. -/
theorem catchUpLoop_zero_interval (w now lt : Nat) (hlt : lt < 2 ^ w) (hle : lt ≤ now) :
    ∀ fuel : Nat, catchUpLoop w 0 now fuel lt = none := by
  have hadd : wadd w lt 0 = lt := Nat.mod_eq_of_lt hlt
  intro fuel
  induction fuel with
  | zero => rfl
  | succ n ih =>
    rw [catchUpLoop_step w 0 now n lt (by rw [hadd]; exact hle), hadd]
    exact ih

/-- When the clock reads its largest value `2 ^ w - 1`, the condition of the
loop holds for every `lastTime`, whatever the interval: no amount of fuel
suffices. -/
theorem catchUpLoop_max_clock (w I : Nat) :
    ∀ (fuel lt : Nat), catchUpLoop w I (2 ^ w - 1) fuel lt = none := by
  intro fuel
  induction fuel with
  | zero => intro lt; rfl
  | succ n ih =>
    intro lt
    have h : wadd w lt I ≤ 2 ^ w - 1 := Nat.le_pred_of_lt (wadd_lt w lt I)
    rw [catchUpLoop_step w I (2 ^ w - 1) n lt h]
    exact ih _

/-- A poll with catch-up whose entry test passes and whose loop does not end
within the fuel does not return. -/
theorem poll_true_of_loop_none (w fuel : Nat) (s : TimerTask) (now : Nat)
    (hp : s.isPaused = false) (hi : s.interval ≤ wsub w now s.lastTime)
    (hloop : catchUpLoop w s.interval now fuel s.lastTime = none) :
    poll w fuel s true now = none := by
  simp [poll, checkInterval, hp, hi, hloop]

/-- C12 (evaluation of the code). A running timer with interval 0 and
`lastReference = 0`, polled at clock reading 5: the poll without catch-up
returns `true`, but the poll with `catchUp = true` does not return, for any
width and any fuel, because `lastTime + 0 <= currentTime` stays true. -/
theorem interval_zero_catchUp_never_returns :
    timerZero.interval = 0 ∧ timerZero.isPaused = false ∧
    (∀ (w fuel : Nat), ∃ r, poll w fuel timerZero false 5 = some r ∧ r.fired = true) ∧
    (∀ (w fuel : Nat), poll w fuel timerZero true 5 = none) := by
  refine ⟨rfl, rfl, ?_, ?_⟩
  · intro w fuel
    refine ⟨_, poll_false_eq w fuel timerZero 5, ?_⟩
    simp [timerZero, new, fire_fired]
  · intro w fuel
    exact poll_true_of_loop_none w fuel timerZero 5 rfl (Nat.zero_le _)
      (catchUpLoop_zero_interval w 5 0 (Nat.pos_pow_of_pos w (by decide)) (by decide) fuel)

/-- C13 (evaluation of the code). Width 32, a running timer with interval 1
and `lastReference = 0`, polled with `catchUp = true` when the clock reads
`2 ^ 32 - 1`: every 32-bit value of `lastTime + interval` is at most the clock
reading, so the loop never ends and the poll does not return, for any fuel. -/
theorem catchUp_at_max_clock_never_returns :
    0 < timerTick.interval ∧ timerTick.isPaused = false ∧
    (∀ fuel : Nat, poll 32 fuel timerTick true (2 ^ 32 - 1) = none) := by
  refine ⟨by decide, rfl, ?_⟩
  intro fuel
  exact poll_true_of_loop_none 32 fuel timerTick (2 ^ 32 - 1) rfl (by decide)
    (catchUpLoop_max_clock 32 1 fuel 0)

/-! ## Frame of a poll -/

/-- C14. A poll of a paused timer, or with
`(now - lastReference) mod 2 ^ w < interval`, returns `false`, leaves every
field of the object as it was and calls no callback, for either catch-up flag
and any fuel. -/
theorem poll_nonfiring_no_effect (w fuel : Nat) (s : TimerTask) (c : Bool) (now : Nat)
    (h : s.isPaused = true ∨
      ((now : Int) - (s.lastTime : Int)) % (2 : Int) ^ w < (s.interval : Int)) :
    ∃ r, poll w fuel s c now = some r ∧ r.fired = false ∧ r.calls = [] ∧
      r.state = s ∧
      r.state.lastTime = s.lastTime ∧ r.state.interval = s.interval ∧
      r.state.isPaused = s.isPaused ∧ r.state.pauseTime = s.pauseTime ∧
      r.state.autoRetrigger = s.autoRetrigger ∧ r.state.triggered = s.triggered ∧
      r.state.task = s.task := by
  have h1 : s.isPaused = true ∨ ¬ s.interval ≤ wsub w now s.lastTime := by
    rcases h with h | h
    · exact Or.inl h
    · exact Or.inr (fun hle => absurd ((le_wsub_iff w _ _ _).1 hle) (not_le.2 h))
  exact ⟨_, poll_not_fired w fuel s c now h1, rfl, rfl, rfl, rfl, rfl, rfl, rfl, rfl, rfl, rfl⟩

/-- Witness of C14 at width 32: a timer with callback 7 and interval 100,
polled with catch-up at 99. -/
theorem poll_nonfiring_no_effect_witness :
    ∃ r, poll 32 0 timerWithTask true 99 = some r ∧ r.fired = false ∧ r.calls = [] ∧
      r.state = timerWithTask := by
  obtain ⟨r, h1, h2, h3, h4, _⟩ :=
    poll_nonfiring_no_effect 32 0 timerWithTask true 99 (Or.inr (by decide))
  exact ⟨r, h1, h2, h3, h4⟩

/-! ## The latch and the retrigger mode -/

/-- The object after a firing keeps `autoRetrigger`, and is latched afterwards
only if it was latched before or is a one-shot timer. -/
theorem fire_latch (s : TimerTask) (m : Nat) :
    (fire s m).state.autoRetrigger = s.autoRetrigger ∧
    ((fire s m).state.triggered = true →
      s.triggered = true ∨ s.autoRetrigger = false) := by
  cases ha : s.autoRetrigger <;> cases hp : s.isPaused <;> simp [fire, pause, ha, hp]

/-- No call changes `autoRetrigger`, and a call leaves the object latched only
if it was latched before or is a one-shot timer. -/
theorem apply_latch (w fuel : Nat) (s : TimerTask) (op : Op) (r : PollResult)
    (hr : Op.apply w fuel s op = some r) :
    r.state.autoRetrigger = s.autoRetrigger ∧
    (r.state.triggered = true → s.triggered = true ∨ s.autoRetrigger = false) := by
  cases op with
  | setTask func =>
    simp only [Op.apply, Option.some.injEq] at hr
    subst hr
    exact ⟨rfl, fun h => Or.inl h⟩
  | setInterval i =>
    simp only [Op.apply, Option.some.injEq] at hr
    subst hr
    exact ⟨rfl, fun h => Or.inl h⟩
  | checkInterval c now =>
    rcases poll_cases w fuel s c now r hr with h | ⟨_, _, lt, h⟩
    · subst h
      exact ⟨rfl, fun h => Or.inl h⟩
    · subst h
      exact fire_latch { s with lastTime := lt } now
  | pause now =>
    simp only [Op.apply, Option.some.injEq] at hr
    subst hr
    cases hp : s.isPaused <;> simp [pause, hp] <;> exact fun h => Or.inl h
  | resume now =>
    simp only [Op.apply, Option.some.injEq] at hr
    subst hr
    cases hp : s.isPaused <;> simp [resume, hp] <;> exact fun h => Or.inl h
  | rearm a b now =>
    simp only [Op.apply, Option.some.injEq] at hr
    subst hr
    cases hp : s.isPaused <;> cases a <;> cases b <;>
      simp [rearmAt, rearm, resume, pause, hp]

/-- Over any sequence of calls that returns, `autoRetrigger` is kept and
"latched implies one-shot" is preserved. -/
theorem runOps_latch (w fuel : Nat) (ops : List Op) :
    ∀ (s s1 : TimerTask), runOps w fuel s ops = some s1 →
      (s.triggered = true → s.autoRetrigger = false) →
      s1.autoRetrigger = s.autoRetrigger ∧
      (s1.triggered = true → s1.autoRetrigger = false) := by
  induction ops with
  | nil =>
    intro s s1 h hinv
    simp only [runOps, Option.some.injEq] at h
    subst h
    exact ⟨rfl, hinv⟩
  | cons op ops ih =>
    intro s s1 h hinv
    cases hr : Op.apply w fuel s op with
    | none => simp [runOps, hr] at h
    | some r =>
      simp only [runOps, hr] at h
      obtain ⟨ha, ht⟩ := apply_latch w fuel s op r hr
      have hinv1 : r.state.triggered = true → r.state.autoRetrigger = false := by
        intro h1
        rcases ht h1 with h2 | h2
        · rw [ha]; exact hinv h2
        · rw [ha]; exact h2
      obtain ⟨hb, hc⟩ := ih r.state s1 h hinv1
      exact ⟨hb.trans ha, hc⟩

/-- C15. In every state reached from a constructor call by a finite sequence
of calls of setTask, setInterval, poll, pause, resume and rearm, at arbitrary
clock readings, `latched = true` implies `autoRetrigger = false`; so a timer
constructed with `autoRetrigger = true` reports `isTriggered() = false` after
every such sequence. -/
theorem latched_only_oneShot (w fuel : Nat) (func : Option Nat) (I : Nat)
    (startPaused auto : Bool) (c : Nat) (ops : List Op) (s1 : TimerTask)
    (h : runOps w fuel (new func I startPaused auto c) ops = some s1) :
    (s1.triggered = true → s1.autoRetrigger = false) ∧
    s1.autoRetrigger = auto ∧
    (auto = true → isTriggered s1 = false) := by
  obtain ⟨ha, hinv⟩ := runOps_latch w fuel ops (new func I startPaused auto c) s1 h
    (fun h1 => absurd h1 (by simp [new]))
  have ha1 : s1.autoRetrigger = auto := ha
  refine ⟨hinv, ha1, fun hauto => ?_⟩
  cases ht : s1.triggered with
  | false => exact ht
  | true =>
    have := hinv ht
    rw [ha1, hauto] at this
    exact absurd this (by decide)

/-- Witness of C15 at width 32: a repeating timer with interval 100 is polled
at 100, paused at 120, resumed at 130, re-armed at 140 and polled with catch-up
at 350; it is not latched afterwards. -/
theorem latched_only_oneShot_witness :
    ∃ s1, runOps 32 5 (new none 100 false true 0)
        [Op.checkInterval false 100, Op.pause 120, Op.resume 130,
          Op.rearm true true 140, Op.checkInterval true 350] = some s1 ∧
      isTriggered s1 = false := by
  have hsome : (runOps 32 5 (new none 100 false true 0)
      [Op.checkInterval false 100, Op.pause 120, Op.resume 130,
        Op.rearm true true 140, Op.checkInterval true 350]).isSome = true := by decide
  obtain ⟨s1, hs1⟩ := Option.isSome_iff_exists.1 hsome
  exact ⟨s1, hs1, (latched_only_oneShot 32 5 none 100 false true 0 _ s1 hs1).2.2 rfl⟩

/-! ## The callback -/

/-- The callbacks called by a firing: the callback of the object, if any. -/
theorem fire_calls (s : TimerTask) (m : Nat) : (fire s m).calls = s.task.toList := by
  cases ha : s.autoRetrigger <;> cases hp : s.isPaused <;> cases ht : s.task <;>
    simp [fire, pause, ha, hp, ht]

/-- Firing with another callback: same returned value, same object up to the
callback. -/
theorem fire_setTask (s : TimerTask) (g : Option Nat) (m : Nat) :
    fire (setTask s g) m
      = { fired := true, state := setTask (fire s m).state g, calls := g.toList } := by
  cases ha : s.autoRetrigger <;> cases hp : s.isPaused <;> cases g <;>
    simp [fire, pause, setTask, ha, hp]

/-- C16. The callback is called exactly once by a poll that returns `true` on a
timer with a callback, and not at all otherwise; and the poll of the same timer
with any other callback, or none, returns the same value (or does not return
either) and leaves the same fields apart from the callback. -/
theorem callback_called_iff_fired (w fuel : Nat) (s : TimerTask) (c : Bool) (now : Nat) :
    (∀ r, poll w fuel s c now = some r →
      (r.calls = if r.fired then s.task.toList else []) ∧
      (∀ f, s.task = some f → r.fired = true → r.calls = [f]) ∧
      (r.fired = false → r.calls = []) ∧
      (s.task = none → r.calls = [])) ∧
    (poll w fuel s c now = none → ∀ g, poll w fuel (setTask s g) c now = none) ∧
    (∀ g : Option Nat,
      poll w fuel (setTask s g) c now
        = (poll w fuel s c now).map (fun r =>
            { fired := r.fired, state := setTask r.state g,
              calls := if r.fired then g.toList else [] })) := by
  have hmap : ∀ g : Option Nat,
      poll w fuel (setTask s g) c now
        = (poll w fuel s c now).map (fun r =>
            { fired := r.fired, state := setTask r.state g,
              calls := if r.fired then g.toList else [] }) := by
    intro g
    unfold poll checkInterval
    by_cases hcond : (!s.isPaused && decide (s.interval ≤ wsub w now s.lastTime)) = true
    · have hcond1 : (!(setTask s g).isPaused &&
          decide ((setTask s g).interval ≤ wsub w now (setTask s g).lastTime)) = true := hcond
      rw [if_pos hcond, if_pos hcond1]
      cases c with
      | false =>
        simp only [Bool.false_eq_true, if_false, Option.map_some']
        exact congrArg some (fire_setTask { s with lastTime := now } g now)
      | true =>
        simp only [if_true]
        show (match catchUpLoop w s.interval now fuel s.lastTime with
          | some lt => some (fire { setTask s g with lastTime := lt } now)
          | none => none) = _
        cases catchUpLoop w s.interval now fuel s.lastTime with
        | none => rfl
        | some lt =>
          simp only [Option.map_some']
          exact congrArg some (fire_setTask { s with lastTime := lt } g now)
    · have hcond1 : ¬ (!(setTask s g).isPaused &&
          decide ((setTask s g).interval ≤ wsub w now (setTask s g).lastTime)) = true := hcond
      rw [if_neg hcond, if_neg hcond1]
      rfl
  refine ⟨?_, ?_, hmap⟩
  · intro r hr
    have hcalls : r.calls = if r.fired then s.task.toList else [] := by
      rcases poll_cases w fuel s c now r hr with h | ⟨_, _, lt, h⟩
      · subst h; rfl
      · subst h
        rw [fire_calls, fire_fired]
        rfl
    refine ⟨hcalls, ?_, ?_, ?_⟩
    · intro f hf hfired
      rw [hcalls, hfired, hf]
      rfl
    · intro hfired
      rw [hcalls, hfired]
      rfl
    · intro hnone
      rw [hcalls, hnone]
      cases r.fired <;> rfl
  · intro hnone g
    rw [hmap g, hnone]
    rfl

/-- Witness of C16 at width 32: a timer with callback 7 and interval 100
polled at 100 calls the callback once; without the callback the poll returns
`true` all the same. -/
theorem callback_called_iff_fired_witness :
    ∃ r, poll 32 0 timerWithTask false 100 = some r ∧ r.fired = true ∧ r.calls = [7] ∧
      (poll 32 0 (setTask timerWithTask none) false 100).map PollResult.fired
        = some true ∧
      (poll 32 0 (setTask timerWithTask none) false 100).map PollResult.calls
        = some [] :=
  ⟨fire { timerWithTask with lastTime := 100 } 100, rfl, rfl,
    ((callback_called_iff_fired 32 0 timerWithTask false 100).1
      (fire { timerWithTask with lastTime := 100 } 100) rfl).2.1 7 rfl rfl,
    by decide, by decide⟩

/-! ## Redundant calls, drift, and the run state after `rearm` -/

/-- C17. A pause of a paused timer leaves the object unchanged (`pauseStart` is
not overwritten), and a resume of a running timer leaves the object unchanged
(`lastReference` is not shifted), at every clock reading. -/
theorem redundant_pause_resume (w : Nat) (s : TimerTask) (t : Nat) :
    (s.isPaused = true → pause s t = s ∧ (pause s t).pauseTime = s.pauseTime) ∧
    (s.isPaused = false → resume w s t = s ∧ (resume w s t).lastTime = s.lastTime) := by
  constructor
  · intro hp
    have h : pause s t = s := by simp [pause, hp]
    exact ⟨h, by rw [h]⟩
  · intro hp
    have h : resume w s t = s := by simp [resume, hp]
    exact ⟨h, by rw [h]⟩

/-- Witness of C17 at width 32: a timer paused at 50 is paused again at 70, and
a running timer is resumed at 70. -/
theorem redundant_pause_resume_witness :
    pause (pause timer100 50) 70 = pause timer100 50 ∧
    (pause (pause timer100 50) 70).pauseTime = 50 ∧
    resume 32 timer100 70 = timer100 ∧
    (resume 32 timer100 70).lastTime = 0 :=
  ⟨((redundant_pause_resume 32 (pause timer100 50) 70).1 rfl).1,
   ((redundant_pause_resume 32 (pause timer100 50) 70).1 rfl).2,
   ((redundant_pause_resume 32 timer100 70).2 rfl).1,
   ((redundant_pause_resume 32 timer100 70).2 rfl).2⟩

/-- C18. A running repeating timer polled with `catchUp = false` at `now` with
`(now - lastReference) mod 2 ^ w ≥ interval`: the poll returns `true`, sets
`lastReference = now` and changes no other field; the next poll without
catch-up, at `t`, fires iff `(t - now) mod 2 ^ w ≥ interval`. -/
theorem poll_false_fire_resets_reference (w fuel : Nat) (s : TimerTask) (now : Nat)
    (hp : s.isPaused = false) (ha : s.autoRetrigger = true)
    (hel : (s.interval : Int) ≤ ((now : Int) - (s.lastTime : Int)) % (2 : Int) ^ w) :
    ∃ r, poll w fuel s false now = some r ∧ r.fired = true ∧
      r.state = { s with lastTime := now } ∧
      r.state.lastTime = now ∧ r.state.interval = s.interval ∧
      r.state.isPaused = false ∧ r.state.pauseTime = s.pauseTime ∧
      r.state.autoRetrigger = true ∧ r.state.triggered = s.triggered ∧
      r.state.task = s.task ∧
      (∀ (fuel1 t : Nat), ∃ r1, poll w fuel1 r.state false t = some r1 ∧
        (r1.fired = true ↔
          (s.interval : Int) ≤ ((t : Int) - (now : Int)) % (2 : Int) ^ w)) := by
  have hcond : s.interval ≤ wsub w now s.lastTime := (le_wsub_iff w _ _ _).2 hel
  have hpoll : poll w fuel s false now = some (fire { s with lastTime := now } now) := by
    rw [poll_false_eq]
    simp [hp, hcond]
  have hst : (fire { s with lastTime := now } now).state = { s with lastTime := now } :=
    fire_repeating { s with lastTime := now } now ha
  refine ⟨_, hpoll, rfl, hst, ?_, ?_, ?_, ?_, ?_, ?_, ?_, ?_⟩
  · rw [hst]
  · rw [hst]
  · rw [hst]; exact hp
  · rw [hst]
  · rw [hst]; exact ha
  · rw [hst]
  · rw [hst]
  · intro fuel1 t
    rw [hst]
    obtain ⟨r1, hr1, hiff⟩ := poll_false_fired_iff w fuel1 { s with lastTime := now } t
    exact ⟨r1, hr1, by simpa [hp] using hiff⟩

/-- Witness of C18 at width 32: interval 100, `lastReference = 0`, poll at 350
gives `lastReference = 350`; the next poll does not fire at 449 and fires at
450. -/
theorem poll_false_fire_resets_reference_witness :
    ∃ r, poll 32 0 timer100 false 350 = some r ∧ r.fired = true ∧
      r.state.lastTime = 350 ∧
      (poll 32 0 r.state false 449).map PollResult.fired = some false ∧
      (poll 32 0 r.state false 450).map PollResult.fired = some true := by
  obtain ⟨r, h1, h2, h3, h4, _⟩ :=
    poll_false_fire_resets_reference 32 0 timer100 350 rfl rfl (by decide)
  refine ⟨r, h1, h2, h4, ?_, ?_⟩
  · rw [h3]; decide
  · rw [h3]; decide

/-- C19. After `rearm(resetReference, start)`, whatever the state before and
for all four combinations of the flags: `latched = false` and
`paused = not start`; and `rearm(false, false)` on a paused timer leaves
`lastReference` and `pauseStart` unchanged. -/
theorem rearm_run_state (w : Nat) (s : TimerTask) (resetTime startTimer : Bool) (r : Nat) :
    (rearmAt w s resetTime startTimer r).triggered = false ∧
    (rearmAt w s resetTime startTimer r).isPaused = !startTimer ∧
    (s.isPaused = true →
      (rearmAt w s false false r).lastTime = s.lastTime ∧
      (rearmAt w s false false r).pauseTime = s.pauseTime) := by
  refine ⟨?_, ?_, ?_⟩
  · cases hp : s.isPaused <;> cases resetTime <;> cases startTimer <;>
      simp [rearmAt, rearm, resume, pause, hp]
  · cases hp : s.isPaused <;> cases resetTime <;> cases startTimer <;>
      simp [rearmAt, rearm, resume, pause, hp]
  · intro hp
    simp [rearmAt, rearm, pause, hp]

/-- Witness of C19 at width 32: a timer paused at 50 and re-armed with
`rearm(false, false)` at 200 keeps `lastReference = 0` and `pauseStart = 50`. -/
theorem rearm_run_state_witness :
    (rearmAt 32 (pause timer100 50) false false 200).isPaused = true ∧
    (rearmAt 32 (pause timer100 50) false false 200).lastTime = 0 ∧
    (rearmAt 32 (pause timer100 50) false false 200).pauseTime = 50 :=
  ⟨(rearm_run_state 32 (pause timer100 50) false false 200).2.1,
   ((rearm_run_state 32 (pause timer100 50) false false 200).2.2 rfl).1,
   ((rearm_run_state 32 (pause timer100 50) false false 200).2.2 rfl).2⟩

/-- C20. A running one-shot timer fires on a poll with `catchUp = false` at
clock reading `f`, which leaves `lastReference = pauseStart = f`; then
`rearm(false, true)` and `rearm(true, true)` at a clock reading `r` both give
`lastReference = r`, `paused = false` and `latched = false`. -/
theorem rearm_after_oneShot_reset_irrelevant (w fuel : Nat) (s : TimerTask) (f r : Nat)
    (hp : s.isPaused = false) (ha : s.autoRetrigger = false)
    (hel : (s.interval : Int) ≤ ((f : Int) - (s.lastTime : Int)) % (2 : Int) ^ w)
    (hr : r < 2 ^ w) :
    ∃ res, poll w fuel s false f = some res ∧ res.fired = true ∧
      res.state.lastTime = f ∧ res.state.pauseTime = f ∧
      (rearmAt w res.state false true r).lastTime = r ∧
      (rearmAt w res.state true true r).lastTime = r ∧
      (rearmAt w res.state false true r).isPaused = false ∧
      (rearmAt w res.state true true r).isPaused = false ∧
      (rearmAt w res.state false true r).triggered = false ∧
      (rearmAt w res.state true true r).triggered = false := by
  have hcond : s.interval ≤ wsub w f s.lastTime := (le_wsub_iff w _ _ _).2 hel
  have hpoll : poll w fuel s false f = some (fire { s with lastTime := f } f) := by
    rw [poll_false_eq]
    simp [hp, hcond]
  have hst : (fire { s with lastTime := f } f).state
      = { s with lastTime := f, triggered := true, isPaused := true, pauseTime := f } :=
    fire_oneShot { s with lastTime := f } f hp ha
  have hshift : wadd w f (wsub w r f) = r := by
    rw [wadd_wsub_self, Nat.mod_eq_of_lt hr]
  refine ⟨_, hpoll, rfl, ?_, ?_, ?_, ?_, ?_, ?_, ?_, ?_⟩
  · rw [hst]
  · rw [hst]
  · rw [hst]; simp [rearmAt, rearm, resume, hshift]
  · rw [rearmAt_true_true w _ r hr]
  · rw [hst]; simp [rearmAt, rearm, resume]
  · rw [rearmAt_true_true w _ r hr]
  · rw [hst]; simp [rearmAt, rearm, resume]
  · rw [rearmAt_true_true w _ r hr]

/-- Witness of C20 at width 32: a one-shot timer with interval 100 fires at
120 and is re-armed at 500. -/
theorem rearm_after_oneShot_reset_irrelevant_witness :
    ∃ res, poll 32 0 oneShot100 false 120 = some res ∧ res.fired = true ∧
      (rearmAt 32 res.state false true 500).lastTime = 500 ∧
      (rearmAt 32 res.state true true 500).lastTime = 500 := by
  obtain ⟨res, h1, h2, _, _, h5, h6, _⟩ :=
    rearm_after_oneShot_reset_irrelevant 32 0 oneShot100 120 500 rfl rfl (by decide)
      (by decide)
  exact ⟨res, h1, h2, h5, h6⟩

end TimerTask
